import Mathlib

/-!
Shallow embedding of the scheduler-app repository (TypeScript) in Lean 4.

The embedded code is `src/src/scheduler.ts` (class `JobScheduler`), the type
declarations from the repository's `types` module, and the enabled-job filter
of `src/src/yaml-manager.ts` (`loadJobsFromYaml`).

Modelling conventions:
- JavaScript `Map<string, T>` becomes an association list `List (String × T)`
  with `mapHas` / `mapGet` / `mapSet` / `mapDelete` mirroring `Map` semantics
  (`mapSet` replaces in place, otherwise appends, as `Map.set` preserves
  insertion order).
- JavaScript object literals used as header records are association lists with
  spread semantics (`objSet` / `objMerge`): a later key overwrites in place,
  a fresh key is appended.
- `Date` values are abstract integer timestamps (`Int`); the wall clock of an
  execution is supplied as explicit parameters (`tRun`, `tEnd`), since the
  claims only relate the recorded timestamps to one another, never to real
  time.
- JavaScript truthiness of `x || d` on optional numbers (where `0` is falsy)
  is `orDefaultNat`; the nullish coalescing `x ?? d` is `Option.getD`.
- The HTTP attempt outcome of `axios(requestConfig)` is an oracle
  `outcome : Nat → AttemptOutcome` giving each attempt's result; the retry
  loop of `executeJob` is recursion on the remaining attempt budget.
- `executeJob` additionally returns the ordered list of observable events it
  performs (attempts, backoff sleeps, runtime-state writes), which reifies
  the side-effect sequence of the TypeScript method.
- `node-cron`'s `cron.validate` is an external library function, modelled as
  an arbitrary parameter `validate : String → Bool`.
-/

set_option autoImplicit false

namespace SchedulerApp

/-- `JobDependencyCondition` from the repository's types module. -/
inductive DepCondition where
  | not_ran
  | failed
  | not_ran_or_failed
deriving DecidableEq, Repr

/-- `JobDependencyConfig` from the repository's types module. -/
structure JobDependencyConfig where
  job : String
  windowMinutes : Option Nat := none
  condition : Option DepCondition := none
deriving DecidableEq, Repr

/-- `JobConfig` from the repository's types module. Header records become
association lists; the request body `data` is kept abstract as a string. -/
structure JobConfig where
  name : String
  cronExpression : String
  url : String
  method : String
  headers : Option (List (String × String)) := none
  data : Option String := none
  timeout : Option Nat := none
  retries : Option Nat := none
  enabled : Option Bool := none
  dependsOn : Option JobDependencyConfig := none
deriving DecidableEq, Repr

/-- `JobRuntimeState` from the repository's types module. -/
structure JobRuntimeState where
  lastRunAt : Option Int
  lastSuccessAt : Option Int
  lastFailureAt : Option Int
deriving DecidableEq, Repr

/-- `JobResult` from the repository's types module. -/
structure JobResult where
  success : Bool
  jobName : String
  timestamp : Int
  response : Option String := none
  error : Option String := none
  statusCode : Option Nat := none
  executionTime : Int
deriving DecidableEq, Repr

/-- `SchedulerStatus` from the repository's types module. -/
structure SchedulerStatus where
  totalJobs : Nat
  runningJobs : Nat
  jobNames : List String
deriving DecidableEq, Repr

/-! JavaScript object / `Map` primitives. Both a JS object record and a JS
`Map` keep at most one entry per key, preserve insertion order, overwrite in
place and append fresh keys, so one family of association-list operations
models both. -/

/-- `m.has(k)` / `k in m`. -/
def recHas {α : Type} (m : List (String × α)) (k : String) : Bool :=
  m.any (fun p => p.1 == k)

/-- `m.get(k)` / `m[k]`. -/
def recGet {α : Type} (m : List (String × α)) (k : String) : Option α :=
  (m.find? (fun p => p.1 == k)).map (fun p => p.2)

/-- `m.set(k, v)` / `m[k] = v`: overwrite in place when present, append when
absent. -/
def recSet {α : Type} (m : List (String × α)) (k : String) (v : α) :
    List (String × α) :=
  if recHas m k then
    m.map (fun p => if p.1 == k then (k, v) else p)
  else
    m ++ [(k, v)]

/-- `m.delete(k)`. -/
def recDelete {α : Type} (m : List (String × α)) (k : String) :
    List (String × α) :=
  m.filter (fun p => !(p.1 == k))

/-- Key-value record used for HTTP headers and environment variables. -/
abbrev HeaderMap := List (String × String)

/-- Setting a key on a JavaScript object literal. -/
def objSet (m : HeaderMap) (k v : String) : HeaderMap :=
  recSet m k v

/-- Object spread `{ ...base, ...over }`: each key of `over`, in order,
overwrites or extends `base`. -/
def objMerge (base over : HeaderMap) : HeaderMap :=
  over.foldl (fun acc kv => objSet acc kv.1 kv.2) base

/-- Property lookup on a JavaScript object. -/
def lookupH (m : HeaderMap) (k : String) : Option String :=
  recGet m k

/-- JavaScript `x || d` for an optional number, where `0` is falsy. -/
def orDefaultNat : Option Nat → Nat → Nat
  | some 0, d => d
  | some (n + 1), _ => n + 1
  | none, d => d

/-- A scheduled `node-cron` task as the registry sees it: its expression,
timezone and whether its timer is currently started. -/
structure ScheduledTask where
  cronExpression : String
  timezone : String
  started : Bool
deriving DecidableEq, Repr

/-- The `jobs : Map<string, cron.ScheduledTask>` field of `JobScheduler`. -/
abbrev Registry := List (String × ScheduledTask)

/-- `Map.has`. -/
def mapHas (m : Registry) (k : String) : Bool :=
  recHas m k

/-- `Map.get`. -/
def mapGet (m : Registry) (k : String) : Option ScheduledTask :=
  recGet m k

/-- `Map.set`: replace the binding in place when the key exists, otherwise
append it. -/
def mapSet (m : Registry) (k : String) (v : ScheduledTask) : Registry :=
  recSet m k v

/-- `Map.delete`. -/
def mapDelete (m : Registry) (k : String) : Registry :=
  recDelete m k

/-- The `runtimeState : Map<string, JobRuntimeState>` field, modelled as a
total lookup function (the code only ever uses `get` and `set` on it). -/
abbrev RuntimeStore := String → Option JobRuntimeState

/-- The default runtime-state record `{ lastRunAt: null, lastSuccessAt: null,
lastFailureAt: null }` used by `touchRuntimeState` for an absent entry. -/
def emptyJobRuntimeState : JobRuntimeState :=
  { lastRunAt := none, lastSuccessAt := none, lastFailureAt := none }

/-- `Partial<JobRuntimeState>`: each field may be absent (outer `none`),
or present with a possibly-null timestamp. -/
structure StateUpdates where
  lastRunAt : Option (Option Int) := none
  lastSuccessAt : Option (Option Int) := none
  lastFailureAt : Option (Option Int) := none
deriving DecidableEq, Repr

/-- The object spread `{ ...current, ...updates }` of `touchRuntimeState`. -/
def applyUpdates (cur : JobRuntimeState) (u : StateUpdates) : JobRuntimeState :=
  { lastRunAt := u.lastRunAt.getD cur.lastRunAt
    lastSuccessAt := u.lastSuccessAt.getD cur.lastSuccessAt
    lastFailureAt := u.lastFailureAt.getD cur.lastFailureAt }

/-- `JobScheduler.touchRuntimeState` (scheduler.ts lines 203-211). -/
def touchRuntimeState (store : RuntimeStore) (jobName : String)
    (u : StateUpdates) : RuntimeStore :=
  fun n =>
    if n = jobName then
      some (applyUpdates ((store jobName).getD emptyJobRuntimeState) u)
    else
      store n

/-! Dependency evaluator (scheduler.ts lines 213-237). -/

/-- The guarded window test `t ? t >= windowStart : false`. -/
def inWindow (t : Option Int) (windowStart : Int) : Bool :=
  match t with
  | some x => decide (windowStart ≤ x)
  | none => false

/-- `windowStart = new Date(Date.now() - windowMinutes * 60 * 1000)` with the
`?? 180` default. -/
def windowStartOf (now : Int) (dep : JobDependencyConfig) : Int :=
  now - ((dep.windowMinutes.getD 180 : Nat) : Int) * 60 * 1000

/-- `ranInWindow` as computed by `shouldRunBasedOnDependency`:
`depState?.lastRunAt || null`, then the window test. -/
def ranInWindowOf (store : RuntimeStore) (now : Int)
    (dep : JobDependencyConfig) : Bool :=
  inWindow ((store dep.job).bind (fun st => st.lastRunAt)) (windowStartOf now dep)

/-- `succeededInWindow` as computed by `shouldRunBasedOnDependency`. -/
def succeededInWindowOf (store : RuntimeStore) (now : Int)
    (dep : JobDependencyConfig) : Bool :=
  inWindow ((store dep.job).bind (fun st => st.lastSuccessAt)) (windowStartOf now dep)

/-- `JobScheduler.shouldRunBasedOnDependency` (scheduler.ts lines 213-237). -/
def shouldRunBasedOnDependency (store : RuntimeStore) (now : Int)
    (config : JobConfig) : Bool :=
  match config.dependsOn with
  | none => true
  | some dependency =>
    let condition := dependency.condition.getD DepCondition.not_ran_or_failed
    let ranInWindow := ranInWindowOf store now dependency
    let succeededInWindow := succeededInWindowOf store now dependency
    match condition with
    | DepCondition.not_ran => !ranInWindow
    | DepCondition.failed => ranInWindow && !succeededInWindow
    | DepCondition.not_ran_or_failed =>
      (!ranInWindow) || (ranInWindow && !succeededInWindow)

/-- The evaluator with the `not_ran_or_failed` branch replaced by the
simplified form `!succeededInWindow` suggested by the specification. -/
def shouldRunSimplified (store : RuntimeStore) (now : Int)
    (config : JobConfig) : Bool :=
  match config.dependsOn with
  | none => true
  | some dependency =>
    let condition := dependency.condition.getD DepCondition.not_ran_or_failed
    let ranInWindow := ranInWindowOf store now dependency
    let succeededInWindow := succeededInWindowOf store now dependency
    match condition with
    | DepCondition.not_ran => !ranInWindow
    | DepCondition.failed => ranInWindow && !succeededInWindow
    | DepCondition.not_ran_or_failed => !succeededInWindow

/-- Dependency evaluator written from the specification's words (claim C3):
no dependency means always run; otherwise `windowStart = now - windowMinutes`
(here on the millisecond timeline, so the duration is
`windowMinutes * 60 * 1000`), `windowMinutes` defaulting to 180 and
`condition` to `not_ran_or_failed`, an absent state entry making both
`ranInWindow` and `succeededInWindow` false, and the three condition
branches as stated. -/
def shouldRunSpec (store : RuntimeStore) (now : Int) (config : JobConfig) : Bool :=
  match config.dependsOn with
  | none => true
  | some dep =>
    let windowMinutes := dep.windowMinutes.getD 180
    let windowStart : Int := now - (windowMinutes : Int) * 60 * 1000
    let ranInWindow : Bool :=
      match store dep.job with
      | none => false
      | some st =>
        match st.lastRunAt with
        | none => false
        | some t => decide (t ≥ windowStart)
    let succeededInWindow : Bool :=
      match store dep.job with
      | none => false
      | some st =>
        match st.lastSuccessAt with
        | none => false
        | some t => decide (t ≥ windowStart)
    match dep.condition.getD DepCondition.not_ran_or_failed with
    | DepCondition.not_ran => !ranInWindow
    | DepCondition.failed => ranInWindow && !succeededInWindow
    | DepCondition.not_ran_or_failed =>
      (!ranInWindow) || (ranInWindow && !succeededInWindow)

/-! HTTP dispatcher (scheduler.ts lines 242-266). -/

/-- The request object built by `makeRequest`. -/
structure AxiosRequestConfig where
  method : String
  url : String
  timeout : Nat
  headers : HeaderMap
  data : Option String := none
deriving DecidableEq, Repr

/-- The scheduler instance state relevant to dispatching: the registry and the
`jwtToken` field assigned in the constructor. -/
structure SchedulerState where
  jobs : Registry
  jwtToken : String
deriving DecidableEq, Repr

/-- The `JobScheduler` constructor (scheduler.ts lines 12-20): read
`process.env.JWT_TOKEN || ''` once, fail when empty, otherwise store the token
in the instance field for the scheduler's lifetime. -/
def schedulerConstructor (env : HeaderMap) : Except String SchedulerState :=
  let token := (lookupH env "JWT_TOKEN").getD ""
  if token = "" then
    Except.error "JWT_TOKEN environment variable is required"
  else
    Except.ok { jobs := [], jwtToken := token }

/-- The default header object of `makeRequest`, built from the instance's
cached `jwtToken`. -/
def defaultHeaders (token : String) : HeaderMap :=
  [("Authorization", "Bearer " ++ token),
   ("Content-Type", "application/json"),
   ("User-Agent", "JobScheduler/1.0.0")]

/-- `JobScheduler.makeRequest` (scheduler.ts lines 242-266): headers are the
defaults spread-merged with `...config.headers` (job headers written last),
timeout is `config.timeout || 30000`, and the body is attached only for
POST/PUT/PATCH with truthy `data`. -/
def makeRequest (s : SchedulerState) (config : JobConfig) : AxiosRequestConfig :=
  { method := config.method
    url := config.url
    timeout := orDefaultNat config.timeout 30000
    headers := objMerge (defaultHeaders s.jwtToken) (config.headers.getD [])
    data :=
      if config.data.isSome && (["POST", "PUT", "PATCH"].contains config.method) then
        config.data
      else
        none }

/-! Retry executor (scheduler.ts lines 129-201). -/

/-- Result of one `axios` call: a response (status, data) or a thrown error
message. -/
inductive AttemptOutcome where
  | ok (status : Nat) (data : String)
  | err (msg : String)
deriving DecidableEq, Repr

/-- Observable events of one `executeJob` call, in order: an HTTP attempt, a
backoff sleep, or a `touchRuntimeState` write. -/
inductive ExecEvent where
  | attempt (n : Nat)
  | sleep (ms : Nat)
  | touch (jobName : String) (u : StateUpdates)
deriving DecidableEq, Repr

/-- The backoff `Math.min(1000 * Math.pow(2, attempt - 1), 30000)`. -/
def backoffDelay (attempt : Nat) : Nat :=
  min (1000 * 2 ^ (attempt - 1)) 30000

/-- The `for (attempt = 1; attempt <= maxRetries; attempt++)` loop of
`executeJob`. `fuel = maxRetries - attempt + 1` is the remaining attempt
budget; `fuel = 0` is the unreachable `throw new Error('Unexpected execution
path')` after the loop. `outcome k` is the result of the HTTP call of attempt
`k`, `tEnd k` the clock value when attempt `k` finishes. Returns the updated
runtime store, the event trace, and the terminal result. -/
def retryLoop (cfg : JobConfig) (outcome : Nat → AttemptOutcome)
    (tEnd : Nat → Int) (startTime : Int) :
    Nat → Nat → RuntimeStore → RuntimeStore × List ExecEvent × Except String JobResult
  | _attempt, 0, store => (store, [], Except.error "Unexpected execution path")
  | attempt, fuel + 1, store =>
    match outcome attempt with
    | AttemptOutcome.ok status data =>
      let t := tEnd attempt
      let u : StateUpdates := { lastSuccessAt := some (some t) }
      (touchRuntimeState store cfg.name u,
       [ExecEvent.attempt attempt, ExecEvent.touch cfg.name u],
       Except.ok
         { success := true
           jobName := cfg.name
           timestamp := t
           response := some data
           statusCode := some status
           executionTime := t - startTime })
    | AttemptOutcome.err msg =>
      if fuel = 0 then
        let t := tEnd attempt
        let u : StateUpdates := { lastFailureAt := some (some t) }
        (touchRuntimeState store cfg.name u,
         [ExecEvent.attempt attempt, ExecEvent.touch cfg.name u],
         Except.ok
           { success := false
             jobName := cfg.name
             timestamp := t
             error := some msg
             executionTime := t - startTime })
      else
        let rest := retryLoop cfg outcome tEnd startTime (attempt + 1) fuel store
        (rest.1,
         ExecEvent.attempt attempt :: ExecEvent.sleep (backoffDelay attempt) :: rest.2.1,
         rest.2.2)

/-- `JobScheduler.executeJob` (scheduler.ts lines 129-201): `maxRetries =
config.retries || 3`, record `lastRunAt` unconditionally before the first
attempt, then run the retry loop. `tRun` is the clock value of the initial
`new Date()`. -/
def executeJob (cfg : JobConfig) (outcome : Nat → AttemptOutcome)
    (tEnd : Nat → Int) (startTime : Int) (tRun : Int) (store : RuntimeStore) :
    RuntimeStore × List ExecEvent × Except String JobResult :=
  let maxRetries := orDefaultNat cfg.retries 3
  let u0 : StateUpdates := { lastRunAt := some (some tRun) }
  let store1 := touchRuntimeState store cfg.name u0
  let r := retryLoop cfg outcome tEnd startTime 1 maxRetries store1
  (r.1, ExecEvent.touch cfg.name u0 :: r.2.1, r.2.2)

/-! Registry operations (scheduler.ts lines 60-103, 271-341, 346-382). -/

/-- `JobScheduler.removeJob` (scheduler.ts lines 318-327). -/
def removeJob (s : SchedulerState) (jobName : String) : Bool × SchedulerState :=
  match mapGet s.jobs jobName with
  | some _ => (true, { s with jobs := mapDelete s.jobs jobName })
  | none => (false, s)

/-- `JobScheduler.registerJob` (scheduler.ts lines 60-103): remove an existing
binding of the same name first, then validate the cron expression (throwing on
failure), then create the task with `scheduled: true` and store it. `validate`
models the external `cron.validate`. The returned state is the instance state
after the call, also when it throws. -/
def registerJob (validate : String → Bool) (timezone : String)
    (s : SchedulerState) (config : JobConfig) :
    Except String Unit × SchedulerState :=
  let s1 := if mapHas s.jobs config.name then (removeJob s config.name).2 else s
  if validate config.cronExpression then
    (Except.ok (),
     { s1 with
         jobs := mapSet s1.jobs config.name
           { cronExpression := config.cronExpression
             timezone := timezone
             started := true } })
  else
    (Except.error ("Invalid cron expression: " ++ config.cronExpression), s1)

/-- `JobScheduler.stop` (scheduler.ts lines 291-298): stop every task's timer;
bindings stay in the registry. -/
def stop (s : SchedulerState) : SchedulerState :=
  { s with jobs := s.jobs.map (fun p => (p.1, { p.2 with started := false })) }

/-- `JobScheduler.start` (scheduler.ts lines 271-286). -/
def start (s : SchedulerState) : SchedulerState :=
  { s with jobs := s.jobs.map (fun p => (p.1, { p.2 with started := true })) }

/-- `JobScheduler.getJobNames` (scheduler.ts lines 303-305). -/
def getJobNames (s : SchedulerState) : List String :=
  s.jobs.map (fun p => p.1)

/-- `JobScheduler.isJobRunning` (scheduler.ts lines 310-313): true exactly
when a binding exists, with no look at the timer. -/
def isJobRunning (s : SchedulerState) (jobName : String) : Bool :=
  (mapGet s.jobs jobName).isSome

/-- `JobScheduler.getStatus` (scheduler.ts lines 332-341). -/
def getStatus (s : SchedulerState) : SchedulerStatus :=
  let jobNames := getJobNames s
  { totalJobs := jobNames.length
    runningJobs := (jobNames.filter (fun n => isJobRunning s n)).length
    jobNames := jobNames }

/-- `JobScheduler.updateJobsFromYaml` (scheduler.ts lines 346-382): stop all,
clear the registry, then register each supplied definition, catching and
skipping per-job registration errors. -/
def updateJobsFromYaml (validate : String → Bool) (timezone : String)
    (s : SchedulerState) (jobs : List JobConfig) : SchedulerState :=
  let s1 := stop s
  let s2 := { s1 with jobs := ([] : Registry) }
  jobs.foldl (fun acc job => (registerJob validate timezone acc job).2) s2

/-- The enabled-job filter of `YamlManager.loadJobsFromYaml` (yaml-manager.ts
lines 47-49): definitions with `enabled !== false` survive; applied to the
names for comparison with the registry key set. -/
def enabledNames (jobs : List JobConfig) : List String :=
  (jobs.filter (fun j => !(j.enabled == some false))).map (fun j => j.name)

/-! Generic facts about the record / `Map` operations. -/

theorem recGet_nil {α : Type} (k : String) : recGet ([] : List (String × α)) k = none := rfl

theorem recGet_cons {α : Type} (p : String × α) (m : List (String × α)) (k : String) :
    recGet (p :: m) k = if p.1 == k then some p.2 else recGet m k := by
  unfold recGet
  by_cases h : (p.1 == k) = true
  · rw [List.find?_cons_of_pos m h, if_pos h]
    rfl
  · rw [List.find?_cons_of_neg m h, if_neg h]

theorem recGet_append {α : Type} (l1 l2 : List (String × α)) (k : String) :
    recGet (l1 ++ l2) k =
      match recGet l1 k with
      | some v => some v
      | none => recGet l2 k := by
  induction l1 with
  | nil => rw [List.nil_append, recGet_nil]
  | cons p rest ih =>
    rw [List.cons_append, recGet_cons, recGet_cons]
    by_cases h : (p.1 == k) = true
    · rw [if_pos h, if_pos h]
    · rw [if_neg h, if_neg h, ih]

theorem recHas_iff_mem {α : Type} (m : List (String × α)) (k : String) :
    recHas m k = true ↔ k ∈ m.map Prod.fst := by
  unfold recHas
  rw [List.any_eq_true]
  constructor
  · rintro ⟨p, hp, hpk⟩
    exact List.mem_map.mpr ⟨p, hp, beq_iff_eq.mp hpk⟩
  · intro hmem
    rcases List.mem_map.mp hmem with ⟨p, hp, hpk⟩
    exact ⟨p, hp, beq_iff_eq.mpr hpk⟩

theorem isSome_recGet_iff {α : Type} (m : List (String × α)) (k : String) :
    (recGet m k).isSome = true ↔ k ∈ m.map Prod.fst := by
  unfold recGet
  have hmap : ∀ (o : Option (String × α)), (o.map (fun p => p.2)).isSome = o.isSome := by
    intro o
    cases o <;> rfl
  rw [hmap, List.find?_isSome]
  constructor
  · rintro ⟨p, hp, hpk⟩
    exact List.mem_map.mpr ⟨p, hp, beq_iff_eq.mp hpk⟩
  · intro hmem
    rcases List.mem_map.mp hmem with ⟨p, hp, hpk⟩
    exact ⟨p, hp, beq_iff_eq.mpr hpk⟩

theorem recGet_eq_none_of_not_mem {α : Type} (m : List (String × α)) (k : String)
    (h : k ∉ m.map Prod.fst) : recGet m k = none := by
  rcases ho : recGet m k with _ | v
  · rfl
  · exact absurd ((isSome_recGet_iff m k).mp (by rw [ho]; rfl)) h

theorem recGet_mapReplace {α : Type} (m : List (String × α)) (k k2 : String) (v : α) :
    recGet (m.map (fun p => if p.1 == k then (k, v) else p)) k2 =
      if k2 = k then (recGet m k).map (fun _ => v) else recGet m k2 := by
  induction m with
  | nil =>
    by_cases h : k2 = k
    · rw [List.map_nil, recGet_nil, recGet_nil, if_pos h]
      rfl
    · rw [List.map_nil, recGet_nil, recGet_nil, if_neg h]
  | cons p rest ih =>
    rw [List.map_cons, recGet_cons]
    by_cases hp : (p.1 == k) = true
    · rw [if_pos hp]
      by_cases hk : k2 = k
      · subst hk
        rw [if_pos (beq_self_eq_true k2), if_pos rfl, recGet_cons, if_pos hp]
        rfl
      · have hkk2 : ¬ (k == k2) = true := fun hc => hk (beq_iff_eq.mp hc).symm
        rw [if_neg hkk2, ih, if_neg hk, if_neg hk, recGet_cons]
        have hpk2 : ¬ (p.1 == k2) = true := by
          rw [beq_iff_eq.mp hp]
          exact hkk2
        rw [if_neg hpk2]
    · rw [if_neg hp]
      by_cases hpk2 : (p.1 == k2) = true
      · have hk : ¬ k2 = k := by
          intro hc
          exact hp (by rw [beq_iff_eq.mp hpk2, hc]; exact beq_self_eq_true k)
        rw [if_pos hpk2, if_neg hk, recGet_cons, if_pos hpk2]
      · rw [if_neg hpk2, ih, recGet_cons, recGet_cons, if_neg hp, if_neg hpk2]

theorem not_mem_of_not_recHas {α : Type} (m : List (String × α)) (k : String)
    (h : ¬ recHas m k = true) : k ∉ m.map Prod.fst :=
  fun hmem => h ((recHas_iff_mem m k).mpr hmem)

theorem recGet_recSet_self {α : Type} (m : List (String × α)) (k : String) (v : α) :
    recGet (recSet m k v) k = some v := by
  unfold recSet
  by_cases h : recHas m k = true
  · rw [if_pos h, recGet_mapReplace, if_pos rfl]
    have hsome : (recGet m k).isSome = true :=
      (isSome_recGet_iff m k).mpr ((recHas_iff_mem m k).mp h)
    rcases ho : recGet m k with _ | w
    · rw [ho] at hsome
      simp at hsome
    · rfl
  · rw [if_neg h, recGet_append,
      recGet_eq_none_of_not_mem m k (not_mem_of_not_recHas m k h),
      recGet_cons, if_pos (beq_self_eq_true k)]

theorem recGet_recSet_ne {α : Type} (m : List (String × α)) (k k2 : String) (v : α)
    (h : k2 ≠ k) : recGet (recSet m k v) k2 = recGet m k2 := by
  unfold recSet
  by_cases hh : recHas m k = true
  · rw [if_pos hh, recGet_mapReplace, if_neg h]
  · have hkk2 : ¬ (k == k2) = true := fun hc => h (beq_iff_eq.mp hc).symm
    rw [if_neg hh, recGet_append]
    rcases recGet m k2 with _ | w
    · rw [recGet_cons, if_neg hkk2, recGet_nil]
    · rfl

theorem keys_recSet {α : Type} (m : List (String × α)) (k : String) (v : α) :
    (recSet m k v).map Prod.fst =
      if recHas m k then m.map Prod.fst else m.map Prod.fst ++ [k] := by
  unfold recSet
  by_cases h : recHas m k = true
  · rw [if_pos h, if_pos h, List.map_map]
    apply List.map_congr_left
    intro p _hp
    by_cases hpk : (p.1 == k) = true
    · show (if (p.1 == k) = true then (k, v) else p).1 = p.1
      rw [if_pos hpk]
      exact (beq_iff_eq.mp hpk).symm
    · show (if (p.1 == k) = true then (k, v) else p).1 = p.1
      rw [if_neg hpk]
  · rw [if_neg h, if_neg h, List.map_append]
    rfl

theorem keys_recDelete_not_mem {α : Type} (m : List (String × α)) (k : String) :
    k ∉ (recDelete m k).map Prod.fst := by
  intro hmem
  rcases List.mem_map.mp hmem with ⟨p, hp, hpk⟩
  have hfilter := List.of_mem_filter hp
  rw [hpk] at hfilter
  simp at hfilter

/-! Unfolding lemmas for the dependency evaluator. -/

theorem ranInWindowOf_eq (store : RuntimeStore) (now : Int) (dep : JobDependencyConfig) :
    ranInWindowOf store now dep =
      match store dep.job with
      | none => false
      | some st =>
        match st.lastRunAt with
        | none => false
        | some t => decide (t ≥ windowStartOf now dep) := by
  unfold ranInWindowOf inWindow
  cases store dep.job with
  | none => rfl
  | some st =>
    rcases st with ⟨r, su, f⟩
    cases r <;> rfl

theorem succeededInWindowOf_eq (store : RuntimeStore) (now : Int) (dep : JobDependencyConfig) :
    succeededInWindowOf store now dep =
      match store dep.job with
      | none => false
      | some st =>
        match st.lastSuccessAt with
        | none => false
        | some t => decide (t ≥ windowStartOf now dep) := by
  unfold succeededInWindowOf inWindow
  cases store dep.job with
  | none => rfl
  | some st =>
    rcases st with ⟨r, su, f⟩
    cases su <;> rfl

theorem shouldRun_of_none (store : RuntimeStore) (now : Int) (config : JobConfig)
    (h : config.dependsOn = none) :
    shouldRunBasedOnDependency store now config = true := by
  unfold shouldRunBasedOnDependency
  rw [h]

theorem shouldRun_of_some (store : RuntimeStore) (now : Int) (config : JobConfig)
    (dep : JobDependencyConfig) (h : config.dependsOn = some dep) :
    shouldRunBasedOnDependency store now config =
      match dep.condition.getD DepCondition.not_ran_or_failed with
      | DepCondition.not_ran => !ranInWindowOf store now dep
      | DepCondition.failed =>
        ranInWindowOf store now dep && !succeededInWindowOf store now dep
      | DepCondition.not_ran_or_failed =>
        (!ranInWindowOf store now dep) ||
          (ranInWindowOf store now dep && !succeededInWindowOf store now dep) := by
  unfold shouldRunBasedOnDependency
  rw [h]

theorem shouldRunSimplified_of_none (store : RuntimeStore) (now : Int) (config : JobConfig)
    (h : config.dependsOn = none) :
    shouldRunSimplified store now config = true := by
  unfold shouldRunSimplified
  rw [h]

theorem shouldRunSimplified_of_some (store : RuntimeStore) (now : Int) (config : JobConfig)
    (dep : JobDependencyConfig) (h : config.dependsOn = some dep) :
    shouldRunSimplified store now config =
      match dep.condition.getD DepCondition.not_ran_or_failed with
      | DepCondition.not_ran => !ranInWindowOf store now dep
      | DepCondition.failed =>
        ranInWindowOf store now dep && !succeededInWindowOf store now dep
      | DepCondition.not_ran_or_failed => !succeededInWindowOf store now dep := by
  unfold shouldRunSimplified
  rw [h]

theorem shouldRunSpec_of_none (store : RuntimeStore) (now : Int) (config : JobConfig)
    (h : config.dependsOn = none) :
    shouldRunSpec store now config = true := by
  unfold shouldRunSpec
  rw [h]

theorem shouldRunSpec_of_some (store : RuntimeStore) (now : Int) (config : JobConfig)
    (dep : JobDependencyConfig) (h : config.dependsOn = some dep) :
    shouldRunSpec store now config =
      match dep.condition.getD DepCondition.not_ran_or_failed with
      | DepCondition.not_ran =>
        !(match store dep.job with
          | none => false
          | some st =>
            match st.lastRunAt with
            | none => false
            | some t => decide (t ≥ windowStartOf now dep))
      | DepCondition.failed =>
        (match store dep.job with
          | none => false
          | some st =>
            match st.lastRunAt with
            | none => false
            | some t => decide (t ≥ windowStartOf now dep)) &&
          !(match store dep.job with
            | none => false
            | some st =>
              match st.lastSuccessAt with
              | none => false
              | some t => decide (t ≥ windowStartOf now dep))
      | DepCondition.not_ran_or_failed =>
        (!(match store dep.job with
          | none => false
          | some st =>
            match st.lastRunAt with
            | none => false
            | some t => decide (t ≥ windowStartOf now dep))) ||
          ((match store dep.job with
            | none => false
            | some st =>
              match st.lastRunAt with
              | none => false
              | some t => decide (t ≥ windowStartOf now dep)) &&
            !(match store dep.job with
              | none => false
              | some st =>
                match st.lastSuccessAt with
                | none => false
                | some t => decide (t ≥ windowStartOf now dep))) := by
  unfold shouldRunSpec
  rw [h]
  rfl

/-- Claim C3: the dependency evaluator `shouldRunBasedOnDependency` of
scheduler.ts equals the reference definition `shouldRunSpec` transcribed from
the specification, for every policy, runtime-state store, clock value and job
configuration: no dependency gives true; otherwise, with the stated defaults
and window, `not_ran` gives `!ranInWindow`, `failed` gives
`ranInWindow && !succeededInWindow`, and `not_ran_or_failed` gives
`!ranInWindow || (ranInWindow && !succeededInWindow)`. -/
theorem claim3_dependency_evaluator_matches_spec
    (store : RuntimeStore) (now : Int) (config : JobConfig) :
    shouldRunBasedOnDependency store now config = shouldRunSpec store now config := by
  cases hdep : config.dependsOn with
  | none => rw [shouldRun_of_none store now config hdep, shouldRunSpec_of_none store now config hdep]
  | some dep =>
    rw [shouldRun_of_some store now config dep hdep,
      shouldRunSpec_of_some store now config dep hdep,
      ranInWindowOf_eq, succeededInWindowOf_eq]

/-- Runtime store for the C4 counterexample: the dependency job `A` has no
recorded run but a success timestamp inside the window (stale data, as the
specification itself describes). -/
def staleSuccessStore : RuntimeStore :=
  fun n =>
    if n = "A" then
      some { lastRunAt := none, lastSuccessAt := some 0, lastFailureAt := none }
    else
      none

/-- Job configuration for the C4 counterexample: depends on job `A` with the
default window (180 minutes) and default condition `not_ran_or_failed`. -/
def dependentOnA : JobConfig :=
  { name := "B"
    cronExpression := "* * * * *"
    url := "http://example.test"
    method := "GET"
    dependsOn := some { job := "A" } }

/-- Claim C4 counterexample: with `ranInWindow = false` and
`succeededInWindow = true` (a reachable runtime-state entry), the three-way
`not_ran_or_failed` branch returns true while the simplified form
`!succeededInWindow` returns false, so the two forms are not equal for every
pair of boolean values computed from a runtime-state entry. -/
theorem claim4_counterexample :
    ranInWindowOf staleSuccessStore 0 { job := "A" } = false ∧
    succeededInWindowOf staleSuccessStore 0 { job := "A" } = true ∧
    shouldRunBasedOnDependency staleSuccessStore 0 dependentOnA = true ∧
    shouldRunSimplified staleSuccessStore 0 dependentOnA = false := by
  refine ⟨rfl, ?_, rfl, ?_⟩ <;> decide

/-- The constraint under which the two forms agree (amended claim C4): the
dependency's success-in-window flag implies its ran-in-window flag. -/
def depConsistent (store : RuntimeStore) (now : Int) (config : JobConfig) : Prop :=
  match config.dependsOn with
  | none => True
  | some dep =>
    succeededInWindowOf store now dep = true → ranInWindowOf store now dep = true

/-- Claim C4 (amended): the three-way `not_ran_or_failed` branch equals the
simplified form `!succeededInWindow` for every state combination in which
`succeededInWindow` implies `ranInWindow`; the two differ exactly at
`ranInWindow = false, succeededInWindow = true`. -/
theorem claim4_amended_equivalence (store : RuntimeStore) (now : Int)
    (config : JobConfig) (h : depConsistent store now config) :
    shouldRunBasedOnDependency store now config =
      shouldRunSimplified store now config := by
  cases hdep : config.dependsOn with
  | none =>
    rw [shouldRun_of_none store now config hdep,
      shouldRunSimplified_of_none store now config hdep]
  | some dep =>
    unfold depConsistent at h
    rw [hdep] at h
    rw [shouldRun_of_some store now config dep hdep,
      shouldRunSimplified_of_some store now config dep hdep]
    cases dep.condition.getD DepCondition.not_ran_or_failed with
    | not_ran => rfl
    | failed => rfl
    | not_ran_or_failed =>
      cases hr : ranInWindowOf store now dep with
      | true =>
        cases hs : succeededInWindowOf store now dep <;> rfl
      | false =>
        cases hs : succeededInWindowOf store now dep with
        | false => rfl
        | true =>
          rw [h hs] at hr
          exact absurd hr (by decide)

/-- Witness for the amended claim C4 at a concrete consistent store (the
dependency ran and succeeded inside the window). -/
theorem claim4_amended_witness :
    shouldRunBasedOnDependency
        (fun n =>
          if n = "A" then
            some { lastRunAt := some 0, lastSuccessAt := some 0, lastFailureAt := none }
          else
            none)
        0 dependentOnA =
      shouldRunSimplified
        (fun n =>
          if n = "A" then
            some { lastRunAt := some 0, lastSuccessAt := some 0, lastFailureAt := none }
          else
            none)
        0 dependentOnA :=
  claim4_amended_equivalence _ 0 dependentOnA (fun _ => by decide)

/-! Registry observations. -/

theorem isJobRunning_iff_mem (s : SchedulerState) (n : String) :
    isJobRunning s n = true ↔ n ∈ getJobNames s :=
  isSome_recGet_iff s.jobs n

theorem getJobNames_stop (s : SchedulerState) :
    getJobNames (stop s) = getJobNames s := by
  unfold getJobNames stop
  rw [List.map_map]
  rfl

theorem isJobRunning_stop_eq (s : SchedulerState) (n : String) :
    isJobRunning (stop s) n = isJobRunning s n := by
  have h1 := isJobRunning_iff_mem (stop s) n
  have h2 := isJobRunning_iff_mem s n
  rw [getJobNames_stop] at h1
  exact Bool.eq_iff_iff.mpr (h1.trans h2.symm)

theorem runningJobs_eq_totalJobs (s : SchedulerState) :
    (getStatus s).runningJobs = (getStatus s).totalJobs := by
  show ((getJobNames s).filter (fun n => isJobRunning s n)).length = (getJobNames s).length
  rw [List.filter_eq_self.mpr]
  intro n hn
  exact (isJobRunning_iff_mem s n).mpr hn

/-- Claim C9: `isJobRunning` is presence in the registry, independent of the
timer state (stopping every timer does not change it), and `getStatus` always
reports `runningJobs = totalJobs`, including immediately after `stop`. -/
theorem claim9_running_iff_registered (s : SchedulerState) (name : String) :
    (isJobRunning s name = true ↔ name ∈ getJobNames s) ∧
    isJobRunning (stop s) name = isJobRunning s name ∧
    (getStatus s).runningJobs = (getStatus s).totalJobs ∧
    (getStatus (stop s)).runningJobs = (getStatus (stop s)).totalJobs :=
  ⟨isJobRunning_iff_mem s name, isJobRunning_stop_eq s name,
    runningJobs_eq_totalJobs s, runningJobs_eq_totalJobs (stop s)⟩

/-! Behaviour of `registerJob` and `removeJob`. -/

theorem mem_keys_recSet_self {α : Type} (m : List (String × α)) (k : String) (v : α) :
    k ∈ (recSet m k v).map Prod.fst := by
  rw [keys_recSet]
  by_cases h : recHas m k = true
  · rw [if_pos h]
    exact (recHas_iff_mem m k).mp h
  · rw [if_neg h]
    exact List.mem_append.mpr (Or.inr (List.mem_singleton.mpr rfl))

theorem removeJob_of_has (s : SchedulerState) (name : String)
    (h : mapHas s.jobs name = true) :
    (removeJob s name).2 = { s with jobs := mapDelete s.jobs name } := by
  unfold removeJob
  have hsome : (mapGet s.jobs name).isSome = true :=
    (isSome_recGet_iff s.jobs name).mpr ((recHas_iff_mem s.jobs name).mp h)
  rcases hg : mapGet s.jobs name with _ | task
  · rw [hg] at hsome
    simp at hsome
  · rfl

theorem name_not_mem_after_removal (s : SchedulerState) (name : String) :
    name ∉ getJobNames (if mapHas s.jobs name then (removeJob s name).2 else s) := by
  by_cases h : mapHas s.jobs name = true
  · rw [if_pos h, removeJob_of_has s name h]
    exact keys_recDelete_not_mem s.jobs name
  · rw [if_neg h]
    exact fun hmem => h ((recHas_iff_mem s.jobs name).mpr hmem)

theorem registerJob_result_valid (validate : String → Bool) (timezone : String)
    (s : SchedulerState) (config : JobConfig)
    (hv : validate config.cronExpression = true) :
    registerJob validate timezone s config =
      (Except.ok (),
       { jobs := recSet
           (if mapHas s.jobs config.name then (removeJob s config.name).2 else s).jobs
           config.name
           { cronExpression := config.cronExpression
             timezone := timezone
             started := true }
         jwtToken :=
           (if mapHas s.jobs config.name then (removeJob s config.name).2 else s).jwtToken }) := by
  unfold registerJob
  rw [hv]
  rfl

theorem registerJob_result_invalid (validate : String → Bool) (timezone : String)
    (s : SchedulerState) (config : JobConfig)
    (hv : validate config.cronExpression = false) :
    registerJob validate timezone s config =
      (Except.error ("Invalid cron expression: " ++ config.cronExpression),
       if mapHas s.jobs config.name then (removeJob s config.name).2 else s) := by
  unfold registerJob
  rw [hv]
  rfl

/-- Claim C7: for every job definition, a valid cron expression makes
`registerJob` succeed with the name present in `getJobNames`, while an invalid
one makes it throw the configuration error at registration time with the name
absent from `getJobNames`. -/
theorem claim7_register_validation (validate : String → Bool) (timezone : String)
    (s : SchedulerState) (config : JobConfig) :
    (validate config.cronExpression = true →
      (registerJob validate timezone s config).1 = Except.ok () ∧
        config.name ∈ getJobNames (registerJob validate timezone s config).2) ∧
    (validate config.cronExpression = false →
      (registerJob validate timezone s config).1 =
          Except.error ("Invalid cron expression: " ++ config.cronExpression) ∧
        config.name ∉ getJobNames (registerJob validate timezone s config).2) := by
  constructor
  · intro hv
    rw [registerJob_result_valid validate timezone s config hv]
    exact ⟨rfl, mem_keys_recSet_self _ _ _⟩
  · intro hv
    rw [registerJob_result_invalid validate timezone s config hv]
    exact ⟨rfl, name_not_mem_after_removal s config.name⟩

/-- A cron validator for concrete instances: accepts exactly the five-star
expression. -/
def starValidate : String → Bool := fun e => e == "* * * * *"

/-- A registered scheduler holding one binding named `a`. -/
def oneJobState : SchedulerState :=
  { jobs := [("a", { cronExpression := "* * * * *", timezone := "UTC", started := true })]
    jwtToken := "t" }

/-- A job definition named `a` with an invalid cron expression. -/
def badCronA : JobConfig :=
  { name := "a", cronExpression := "not-a-cron", url := "u", method := "GET" }

/-- A job definition named `b` with a valid cron expression. -/
def goodCronB : JobConfig :=
  { name := "b", cronExpression := "* * * * *", url := "u", method := "GET" }

/-- Witness for claim C7 at concrete inputs: registering a valid definition
succeeds and its name is listed; registering an invalid one fails and its name
is not listed. -/
theorem claim7_witness :
    (registerJob starValidate "UTC" oneJobState goodCronB).1 = Except.ok () ∧
    "b" ∈ getJobNames (registerJob starValidate "UTC" oneJobState goodCronB).2 ∧
    (registerJob starValidate "UTC" oneJobState badCronA).1 =
      Except.error "Invalid cron expression: not-a-cron" ∧
    "a" ∉ getJobNames (registerJob starValidate "UTC" oneJobState badCronA).2 := by
  have hgood := (claim7_register_validation starValidate "UTC" oneJobState goodCronB).1 (by decide)
  have hbad := (claim7_register_validation starValidate "UTC" oneJobState badCronA).2 (by decide)
  exact ⟨hgood.1, hgood.2, hbad.1, hbad.2⟩

/-- Claim C10: when a binding of the same name already exists and the new
definition's cron expression is invalid, `registerJob` removes the old binding
before validation, then throws, leaving no binding of that name: the failed
re-registration is not atomic. -/
theorem claim10_failed_reregistration (validate : String → Bool) (timezone : String)
    (s : SchedulerState) (config : JobConfig)
    (hpresent : mapHas s.jobs config.name = true)
    (hv : validate config.cronExpression = false) :
    config.name ∈ getJobNames s ∧
    (registerJob validate timezone s config).1 =
      Except.error ("Invalid cron expression: " ++ config.cronExpression) ∧
    config.name ∉ getJobNames (registerJob validate timezone s config).2 ∧
    (registerJob validate timezone s config).2.jobs = mapDelete s.jobs config.name := by
  refine ⟨(recHas_iff_mem s.jobs config.name).mp hpresent, ?_, ?_, ?_⟩
  · rw [registerJob_result_invalid validate timezone s config hv]
  · rw [registerJob_result_invalid validate timezone s config hv]
    exact name_not_mem_after_removal s config.name
  · rw [registerJob_result_invalid validate timezone s config hv]
    show (if mapHas s.jobs config.name then (removeJob s config.name).2 else s).jobs =
      mapDelete s.jobs config.name
    rw [if_pos hpresent, removeJob_of_has s config.name hpresent]

/-- Witness for claim C10: re-registering the existing binding `a` with an
invalid cron expression errors and leaves the registry without `a`. -/
theorem claim10_witness :
    "a" ∈ getJobNames oneJobState ∧
    (registerJob starValidate "UTC" oneJobState badCronA).1 =
      Except.error "Invalid cron expression: not-a-cron" ∧
    "a" ∉ getJobNames (registerJob starValidate "UTC" oneJobState badCronA).2 ∧
    (registerJob starValidate "UTC" oneJobState badCronA).2.jobs =
      mapDelete oneJobState.jobs "a" :=
  claim10_failed_reregistration starValidate "UTC" oneJobState badCronA (by decide) (by decide)

/-! Reconciliation (`updateJobsFromYaml`). -/

theorem registerJob_jobs_not_present_valid (validate : String → Bool) (timezone : String)
    (acc : SchedulerState) (config : JobConfig)
    (hnot : mapHas acc.jobs config.name = false)
    (hv : validate config.cronExpression = true) :
    (registerJob validate timezone acc config).2.jobs =
      acc.jobs ++
        [(config.name,
          { cronExpression := config.cronExpression
            timezone := timezone
            started := true })] := by
  rw [registerJob_result_valid validate timezone acc config hv]
  show recSet (if mapHas acc.jobs config.name then (removeJob acc config.name).2 else acc).jobs
      config.name
      { cronExpression := config.cronExpression, timezone := timezone, started := true } =
    acc.jobs ++
      [(config.name,
        { cronExpression := config.cronExpression, timezone := timezone, started := true })]
  rw [if_neg (by rw [hnot]; simp)]
  unfold recSet
  have hnot' : recHas acc.jobs config.name = false := hnot
  rw [if_neg (by rw [hnot']; simp)]

theorem registerJob_state_not_present_invalid (validate : String → Bool) (timezone : String)
    (acc : SchedulerState) (config : JobConfig)
    (hnot : mapHas acc.jobs config.name = false)
    (hv : validate config.cronExpression = false) :
    (registerJob validate timezone acc config).2 = acc := by
  rw [registerJob_result_invalid validate timezone acc config hv]
  show (if mapHas acc.jobs config.name then (removeJob acc config.name).2 else acc) = acc
  rw [if_neg (by rw [hnot]; simp)]

theorem foldl_register_keys (validate : String → Bool) (timezone : String)
    (l : List JobConfig) :
    ∀ (acc : SchedulerState),
      (∀ j, j ∈ l → j.name ∉ getJobNames acc) →
      (l.map (fun j => j.name)).Nodup →
      getJobNames (l.foldl (fun a job => (registerJob validate timezone a job).2) acc) =
        getJobNames acc ++
          (l.filter (fun j => validate j.cronExpression)).map (fun j => j.name) := by
  induction l with
  | nil =>
    intro acc _ _
    simp
  | cons j rest ih =>
    intro acc hnot hnd
    rw [List.foldl_cons]
    have hnothas : mapHas acc.jobs j.name = false := by
      cases hb : mapHas acc.jobs j.name with
      | false => rfl
      | true =>
        exact absurd ((recHas_iff_mem acc.jobs j.name).mp hb)
          (hnot j (List.mem_cons_self j rest))
    have hndrest : (rest.map (fun j => j.name)).Nodup := by
      rw [List.map_cons] at hnd
      exact hnd.of_cons
    have hjnotrest : j.name ∉ rest.map (fun k => k.name) := by
      rw [List.map_cons] at hnd
      exact (List.nodup_cons.mp hnd).1
    by_cases hv : validate j.cronExpression = true
    · have hkeys : getJobNames (registerJob validate timezone acc j).2 =
          getJobNames acc ++ [j.name] := by
        show (registerJob validate timezone acc j).2.jobs.map (fun p => p.1) =
          getJobNames acc ++ [j.name]
        rw [registerJob_jobs_not_present_valid validate timezone acc j hnothas hv,
          List.map_append]
        rfl
      have hnot2 : ∀ k, k ∈ rest → k.name ∉ getJobNames (registerJob validate timezone acc j).2 := by
        intro k hk
        rw [hkeys]
        intro hmem
        rcases List.mem_append.mp hmem with hmem1 | hmem2
        · exact hnot k (List.mem_cons_of_mem j hk) hmem1
        · have hkj : k.name = j.name := List.mem_singleton.mp hmem2
          exact hjnotrest (hkj ▸ List.mem_map.mpr ⟨k, hk, rfl⟩)
      rw [ih ((registerJob validate timezone acc j).2) hnot2 hndrest, hkeys,
        List.append_assoc]
      simp [List.filter_cons, hv]
    · have hv' : validate j.cronExpression = false := by
        cases hb : validate j.cronExpression with
        | false => rfl
        | true => exact absurd hb hv
      rw [registerJob_state_not_present_invalid validate timezone acc j hnothas hv',
        ih acc (fun k hk => hnot k (List.mem_cons_of_mem j hk)) hndrest]
      simp [List.filter_cons, hv']

/-- Job configuration for the C8 counterexample: explicitly enabled, with an
invalid cron expression. -/
def enabledBadJob : JobConfig :=
  { name := "a", cronExpression := "not-a-cron", url := "u", method := "GET"
    enabled := some true }

/-- A fresh scheduler instance with an empty registry. -/
def emptyScheduler : SchedulerState := { jobs := [], jwtToken := "t" }

/-- Claim C8 counterexample: reconciling with a single enabled definition
whose cron expression is invalid yields an empty registry, so the registry key
set differs from the enabled-definition name set. -/
theorem claim8_counterexample :
    enabledNames [enabledBadJob] = ["a"] ∧
    getJobNames (updateJobsFromYaml starValidate "UTC" emptyScheduler [enabledBadJob]) = [] :=
  ⟨rfl, rfl⟩

/-- Claim C8 (amended): after every reconciliation with definitions of
pairwise-distinct names, the registry key set equals the set of names of the
supplied definitions whose cron expression is valid — invalid ones are logged
and skipped, and the `enabled` flag is not consulted by `updateJobsFromYaml`
itself (enabled filtering happens upstream in `loadJobsFromYaml`) — and the
registry holds at most one binding per name. -/
theorem claim8_amended_reconciliation (validate : String → Bool) (timezone : String)
    (s : SchedulerState) (l : List JobConfig)
    (hnd : (l.map (fun j => j.name)).Nodup) :
    getJobNames (updateJobsFromYaml validate timezone s l) =
      (l.filter (fun j => validate j.cronExpression)).map (fun j => j.name) ∧
    (getJobNames (updateJobsFromYaml validate timezone s l)).Nodup := by
  have hmain : getJobNames (updateJobsFromYaml validate timezone s l) =
      (l.filter (fun j => validate j.cronExpression)).map (fun j => j.name) := by
    show getJobNames (l.foldl (fun a job => (registerJob validate timezone a job).2)
        { jobs := [], jwtToken := s.jwtToken }) =
      (l.filter (fun j => validate j.cronExpression)).map (fun j => j.name)
    rw [foldl_register_keys validate timezone l
      { jobs := [], jwtToken := s.jwtToken }
      (fun j _hj => List.not_mem_nil j.name) hnd]
    show ([] : List String) ++ _ = _
    rw [List.nil_append]
  refine ⟨hmain, ?_⟩
  rw [hmain]
  exact List.Nodup.sublist ((List.filter_sublist l).map (fun j => j.name)) hnd

/-- Witness for the amended claim C8: reconciling with one valid and one
invalid definition leaves exactly the valid definition's name registered. -/
theorem claim8_amended_witness :
    getJobNames (updateJobsFromYaml starValidate "UTC" emptyScheduler [goodCronB, badCronA]) =
      ["b"] ∧
    (getJobNames (updateJobsFromYaml starValidate "UTC" emptyScheduler [goodCronB, badCronA])).Nodup := by
  have h := claim8_amended_reconciliation starValidate "UTC" emptyScheduler
    [goodCronB, badCronA] (by decide)
  exact ⟨h.1.trans (by decide), h.2⟩

/-! Header construction in `makeRequest`. -/

theorem recGet_foldl_recSet {α : Type} (k : String) (over : List (String × α)) :
    ∀ (base : List (String × α)),
      (over.map Prod.fst).Nodup →
      recGet (over.foldl (fun acc kv => recSet acc kv.1 kv.2) base) k =
        Option.or (recGet over k) (recGet base k) := by
  induction over with
  | nil =>
    intro base _
    rw [List.foldl_nil, recGet_nil]
    rfl
  | cons kv rest ih =>
    intro base hnd
    rw [List.foldl_cons]
    have hndrest : (rest.map Prod.fst).Nodup := by
      rw [List.map_cons] at hnd
      exact hnd.of_cons
    rw [ih (recSet base kv.1 kv.2) hndrest, recGet_cons]
    by_cases hk : (kv.1 == k) = true
    · have hkeq : kv.1 = k := beq_iff_eq.mp hk
      have hknotrest : kv.1 ∉ rest.map Prod.fst := by
        rw [List.map_cons] at hnd
        exact (List.nodup_cons.mp hnd).1
      have hrest : recGet rest k = none := by
        apply recGet_eq_none_of_not_mem
        rw [← hkeq]
        exact hknotrest
      rw [if_pos hk, hrest]
      show recGet (recSet base kv.1 kv.2) k = some kv.2
      rw [← hkeq]
      exact recGet_recSet_self base kv.1 kv.2
    · have hne : k ≠ kv.1 := fun hc => hk (beq_iff_eq.mpr hc.symm)
      rw [if_neg hk, recGet_recSet_ne base kv.1 k kv.2 hne]

theorem lookupH_makeRequest (s : SchedulerState) (config : JobConfig) (k : String)
    (hnd : ((config.headers.getD []).map Prod.fst).Nodup) :
    lookupH (makeRequest s config).headers k =
      Option.or (lookupH (config.headers.getD []) k)
        (lookupH (defaultHeaders s.jwtToken) k) :=
  recGet_foldl_recSet k (config.headers.getD []) (defaultHeaders s.jwtToken) hnd

theorem auth_header_no_override (s : SchedulerState) (config : JobConfig)
    (hnd : ((config.headers.getD []).map Prod.fst).Nodup)
    (hnone : lookupH (config.headers.getD []) "Authorization" = none) :
    lookupH (makeRequest s config).headers "Authorization" =
      some ("Bearer " ++ s.jwtToken) := by
  rw [lookupH_makeRequest s config "Authorization" hnd, hnone]
  rfl

theorem auth_header_override (s : SchedulerState) (config : JobConfig) (v : String)
    (hnd : ((config.headers.getD []).map Prod.fst).Nodup)
    (hsome : lookupH (config.headers.getD []) "Authorization" = some v) :
    lookupH (makeRequest s config).headers "Authorization" = some v := by
  rw [lookupH_makeRequest s config "Authorization" hnd, hsome]
  rfl

/-- A scheduler state whose construction-time token is `tok0`. -/
def tokenState : SchedulerState := { jobs := [], jwtToken := "tok0" }

/-- A job definition that supplies its own Authorization header. -/
def jobWithAuth : JobConfig :=
  { name := "j", cronExpression := "* * * * *", url := "u", method := "GET"
    headers := some [("Authorization", "Bearer custom")] }

/-- A job definition with no headers of its own. -/
def plainJob : JobConfig :=
  { name := "p", cronExpression := "* * * * *", url := "u", method := "GET" }

/-- Claim C1 counterexample: `makeRequest` spreads `...config.headers` after
the system defaults, so a job-supplied Authorization header overrides the
system-controlled `Bearer` token rather than being discarded by it. -/
theorem claim1_counterexample :
    lookupH (makeRequest tokenState jobWithAuth).headers "Authorization" =
      some "Bearer custom" ∧
    ("Bearer custom" : String) ≠ "Bearer " ++ tokenState.jwtToken :=
  ⟨rfl, by decide⟩

/-- Claim C1 (amended): job-supplied headers are merged over the defaults, so
the dispatched request carries `Authorization: Bearer <token>` exactly when
the job supplies no Authorization header of its own; a job-supplied
Authorization value overrides the system-controlled one. -/
theorem claim1_amended_auth_header (s : SchedulerState) (config : JobConfig)
    (hnd : ((config.headers.getD []).map Prod.fst).Nodup) :
    (lookupH (config.headers.getD []) "Authorization" = none →
      lookupH (makeRequest s config).headers "Authorization" =
        some ("Bearer " ++ s.jwtToken)) ∧
    (∀ v, lookupH (config.headers.getD []) "Authorization" = some v →
      lookupH (makeRequest s config).headers "Authorization" = some v) :=
  ⟨fun hnone => auth_header_no_override s config hnd hnone,
   fun v hsome => auth_header_override s config v hnd hsome⟩

/-- Witness for the amended claim C1 at concrete jobs: without a job-supplied
Authorization header the bearer default is used, with one the job value wins. -/
theorem claim1_amended_witness :
    lookupH (makeRequest tokenState plainJob).headers "Authorization" =
      some ("Bearer " ++ tokenState.jwtToken) ∧
    lookupH (makeRequest tokenState jobWithAuth).headers "Authorization" =
      some "Bearer custom" :=
  ⟨(claim1_amended_auth_header tokenState plainJob (by decide)).1 rfl,
   (claim1_amended_auth_header tokenState jobWithAuth (by decide)).2 "Bearer custom" rfl⟩

/-- The scheduler state produced by constructing under `JWT_TOKEN = t0`. -/
def tokenStateT0 : SchedulerState := { jobs := [], jwtToken := "t0" }

/-- Claim C2 counterexample: the constructor reads `JWT_TOKEN` once and caches
it in the instance field; `makeRequest` takes no current-token input, so after
the provider's token changes to `t1`, a dispatch still carries the
construction-time `Bearer t0`, not `Bearer t1`. -/
theorem claim2_counterexample :
    schedulerConstructor [("JWT_TOKEN", "t0")] = Except.ok tokenStateT0 ∧
    lookupH (makeRequest tokenStateT0 plainJob).headers "Authorization" =
      some "Bearer t0" ∧
    ("Bearer t0" : String) ≠ "Bearer t1" :=
  ⟨rfl, rfl, by decide⟩

/-- Claim C2 (amended): the bearer token placed in the Authorization header of
a dispatched request (for a job that supplies no Authorization header of its
own) is the value of the `JWT_TOKEN` environment variable read once at
scheduler construction and cached in the instance for its lifetime; every
attempt of every firing uses this same cached value, so a provider-side token
change after construction is never picked up. -/
theorem claim2_amended_token_cached (env : HeaderMap) (s : SchedulerState)
    (config : JobConfig)
    (hcons : schedulerConstructor env = Except.ok s)
    (hnd : ((config.headers.getD []).map Prod.fst).Nodup)
    (hnoauth : lookupH (config.headers.getD []) "Authorization" = none) :
    s.jwtToken = (lookupH env "JWT_TOKEN").getD "" ∧
    lookupH (makeRequest s config).headers "Authorization" =
      some ("Bearer " ++ s.jwtToken) := by
  have htok : s.jwtToken = (lookupH env "JWT_TOKEN").getD "" := by
    unfold schedulerConstructor at hcons
    by_cases h : (lookupH env "JWT_TOKEN").getD "" = ""
    · rw [if_pos h] at hcons
      exact Except.noConfusion hcons
    · rw [if_neg h] at hcons
      injection hcons with h2
      rw [← h2]
  exact ⟨htok, auth_header_no_override s config hnd hnoauth⟩

/-- Witness for the amended claim C2 at a concrete environment: the cached
token is the construction-time `t0` and every dispatch uses it. -/
theorem claim2_amended_witness :
    tokenStateT0.jwtToken = (lookupH [("JWT_TOKEN", "t0")] "JWT_TOKEN").getD "" ∧
    lookupH (makeRequest tokenStateT0 plainJob).headers "Authorization" =
      some ("Bearer " ++ tokenStateT0.jwtToken) :=
  claim2_amended_token_cached [("JWT_TOKEN", "t0")] tokenStateT0 plainJob rfl
    (by decide) rfl

/-! Retry executor analysis. -/

/-- Number of HTTP attempts recorded in an event trace. -/
def attemptsIn (evs : List ExecEvent) : Nat :=
  (evs.filter fun e =>
    match e with
    | ExecEvent.attempt _ => true
    | _ => false).length

/-- The backoff sleeps of an event trace, in order. -/
def sleepsIn (evs : List ExecEvent) : List Nat :=
  evs.filterMap fun e =>
    match e with
    | ExecEvent.sleep ms => some ms
    | _ => none

/-- The runtime-state writes of an event trace, in order. -/
def touchesIn (evs : List ExecEvent) : List (String × StateUpdates) :=
  evs.filterMap fun e =>
    match e with
    | ExecEvent.touch n u => some (n, u)
    | _ => none

theorem retryLoop_eq_zero (cfg : JobConfig) (outcome : Nat → AttemptOutcome)
    (tEnd : Nat → Int) (startTime : Int) (a : Nat) (store : RuntimeStore) :
    retryLoop cfg outcome tEnd startTime a 0 store =
      (store, [], Except.error "Unexpected execution path") := rfl

theorem retryLoop_eq_succ (cfg : JobConfig) (outcome : Nat → AttemptOutcome)
    (tEnd : Nat → Int) (startTime : Int) (a fuel : Nat) (store : RuntimeStore) :
    retryLoop cfg outcome tEnd startTime a (fuel + 1) store =
      match outcome a with
      | AttemptOutcome.ok status data =>
        (touchRuntimeState store cfg.name { lastSuccessAt := some (some (tEnd a)) },
         [ExecEvent.attempt a,
          ExecEvent.touch cfg.name { lastSuccessAt := some (some (tEnd a)) }],
         Except.ok
           { success := true
             jobName := cfg.name
             timestamp := tEnd a
             response := some data
             statusCode := some status
             executionTime := tEnd a - startTime })
      | AttemptOutcome.err msg =>
        if fuel = 0 then
          (touchRuntimeState store cfg.name { lastFailureAt := some (some (tEnd a)) },
           [ExecEvent.attempt a,
            ExecEvent.touch cfg.name { lastFailureAt := some (some (tEnd a)) }],
           Except.ok
             { success := false
               jobName := cfg.name
               timestamp := tEnd a
               error := some msg
               executionTime := tEnd a - startTime })
        else
          ((retryLoop cfg outcome tEnd startTime (a + 1) fuel store).1,
           ExecEvent.attempt a :: ExecEvent.sleep (backoffDelay a) ::
             (retryLoop cfg outcome tEnd startTime (a + 1) fuel store).2.1,
           (retryLoop cfg outcome tEnd startTime (a + 1) fuel store).2.2) := rfl

/-- The event trace produced by `retryLoop` starting at attempt `a` with
remaining budget `fuel + 1` when every attempt fails. -/
def failEvents (name : String) (tEnd : Nat → Int) : Nat → Nat → List ExecEvent
  | a, 0 =>
    [ExecEvent.attempt a, ExecEvent.touch name { lastFailureAt := some (some (tEnd a)) }]
  | a, fuel + 1 =>
    ExecEvent.attempt a :: ExecEvent.sleep (backoffDelay a) ::
      failEvents name tEnd (a + 1) fuel

theorem failEvents_zero (name : String) (tEnd : Nat → Int) (a : Nat) :
    failEvents name tEnd a 0 =
      [ExecEvent.attempt a, ExecEvent.touch name { lastFailureAt := some (some (tEnd a)) }] := rfl

theorem failEvents_succ (name : String) (tEnd : Nat → Int) (a fuel : Nat) :
    failEvents name tEnd a (fuel + 1) =
      ExecEvent.attempt a :: ExecEvent.sleep (backoffDelay a) ::
        failEvents name tEnd (a + 1) fuel := rfl

theorem retryLoop_all_fail (cfg : JobConfig) (outcome : Nat → AttemptOutcome)
    (tEnd : Nat → Int) (startTime : Int) (msgs : Nat → String)
    (hout : ∀ k, outcome k = AttemptOutcome.err (msgs k)) :
    ∀ (fuel a : Nat) (store : RuntimeStore),
      retryLoop cfg outcome tEnd startTime a (fuel + 1) store =
        (touchRuntimeState store cfg.name
           { lastFailureAt := some (some (tEnd (a + fuel))) },
         failEvents cfg.name tEnd a fuel,
         Except.ok
           { success := false
             jobName := cfg.name
             timestamp := tEnd (a + fuel)
             error := some (msgs (a + fuel))
             executionTime := tEnd (a + fuel) - startTime }) := by
  intro fuel
  induction fuel with
  | zero =>
    intro a store
    rw [retryLoop_eq_succ cfg outcome tEnd startTime a 0 store, hout a]
    simp [failEvents_zero]
  | succ fuel ih =>
    intro a store
    rw [retryLoop_eq_succ cfg outcome tEnd startTime a (fuel + 1) store, hout a]
    have hfz : ¬ (fuel + 1 = 0) := Nat.succ_ne_zero fuel
    simp only [hfz, if_false, ite_false]
    rw [ih (a + 1) store]
    have harith : a + 1 + fuel = a + (fuel + 1) := by omega
    rw [harith, failEvents_succ]

theorem attemptsIn_failEvents (name : String) (tEnd : Nat → Int) :
    ∀ (fuel a : Nat), attemptsIn (failEvents name tEnd a fuel) = fuel + 1 := by
  intro fuel
  induction fuel with
  | zero =>
    intro a
    rfl
  | succ fuel ih =>
    intro a
    rw [failEvents_succ]
    show attemptsIn (failEvents name tEnd (a + 1) fuel) + 1 = fuel + 1 + 1
    rw [ih (a + 1)]

theorem sleepsIn_failEvents (name : String) (tEnd : Nat → Int) :
    ∀ (fuel a : Nat),
      sleepsIn (failEvents name tEnd a fuel) =
        (List.range fuel).map (fun i => backoffDelay (a + i)) := by
  intro fuel
  induction fuel with
  | zero =>
    intro a
    rfl
  | succ fuel ih =>
    intro a
    rw [failEvents_succ]
    show backoffDelay a :: sleepsIn (failEvents name tEnd (a + 1) fuel) = _
    rw [ih (a + 1), List.range_succ_eq_map, List.map_cons, List.map_map]
    have hcomp : ((fun i => backoffDelay (a + i)) ∘ Nat.succ) =
        fun i => backoffDelay (a + 1 + i) := by
      funext i
      show backoffDelay (a + (i + 1)) = backoffDelay (a + 1 + i)
      have : a + (i + 1) = a + 1 + i := by omega
      rw [this]
    rw [hcomp]
    have : a + 0 = a := by omega
    rw [this]

theorem touchesIn_failEvents (name : String) (tEnd : Nat → Int) :
    ∀ (fuel a : Nat),
      touchesIn (failEvents name tEnd a fuel) =
        [(name, { lastFailureAt := some (some (tEnd (a + fuel))) })] := by
  intro fuel
  induction fuel with
  | zero =>
    intro a
    show [(name, ({ lastFailureAt := some (some (tEnd a)) } : StateUpdates))] = _
    rw [Nat.add_zero]
  | succ fuel ih =>
    intro a
    rw [failEvents_succ]
    show touchesIn (failEvents name tEnd (a + 1) fuel) = _
    rw [ih (a + 1)]
    have : a + 1 + fuel = a + (fuel + 1) := by omega
    rw [this]

theorem executeJob_eq (cfg : JobConfig) (outcome : Nat → AttemptOutcome)
    (tEnd : Nat → Int) (startTime tRun : Int) (store : RuntimeStore) :
    executeJob cfg outcome tEnd startTime tRun store =
      ((retryLoop cfg outcome tEnd startTime 1 (orDefaultNat cfg.retries 3)
          (touchRuntimeState store cfg.name { lastRunAt := some (some tRun) })).1,
       ExecEvent.touch cfg.name { lastRunAt := some (some tRun) } ::
         (retryLoop cfg outcome tEnd startTime 1 (orDefaultNat cfg.retries 3)
           (touchRuntimeState store cfg.name { lastRunAt := some (some tRun) })).2.1,
       (retryLoop cfg outcome tEnd startTime 1 (orDefaultNat cfg.retries 3)
         (touchRuntimeState store cfg.name { lastRunAt := some (some tRun) })).2.2) := rfl

/-- Claim C5: for a job with `retries = n ≥ 1` whose every HTTP dispatch
fails, `executeJob` makes exactly `n` attempts, sleeps
`min(1000 * 2^(attempt-1), 30000)` milliseconds between consecutive attempts
(and never after the final one), returns a failure result carrying the last
attempt's error message, and for `n = 3` the total backoff is
`1000 + 2000 = 3000` milliseconds. -/
theorem claim5_retry_exhaustion (cfg : JobConfig) (outcome : Nat → AttemptOutcome)
    (tEnd : Nat → Int) (startTime tRun : Int) (store : RuntimeStore)
    (n : Nat) (hn : 1 ≤ n) (hr : cfg.retries = some n)
    (msgs : Nat → String) (hout : ∀ k, outcome k = AttemptOutcome.err (msgs k)) :
    attemptsIn (executeJob cfg outcome tEnd startTime tRun store).2.1 = n ∧
    sleepsIn (executeJob cfg outcome tEnd startTime tRun store).2.1 =
      (List.range (n - 1)).map (fun i => backoffDelay (i + 1)) ∧
    (executeJob cfg outcome tEnd startTime tRun store).2.2 =
      Except.ok
        { success := false
          jobName := cfg.name
          timestamp := tEnd n
          error := some (msgs n)
          executionTime := tEnd n - startTime } ∧
    (n = 3 → (sleepsIn (executeJob cfg outcome tEnd startTime tRun store).2.1).sum = 3000) := by
  obtain ⟨m, rfl⟩ : ∃ m, n = m + 1 := ⟨n - 1, by omega⟩
  have hmax : orDefaultNat cfg.retries 3 = m + 1 := by
    rw [hr]
    rfl
  have hfull : executeJob cfg outcome tEnd startTime tRun store =
      (touchRuntimeState
         (touchRuntimeState store cfg.name { lastRunAt := some (some tRun) })
         cfg.name { lastFailureAt := some (some (tEnd (1 + m))) },
       ExecEvent.touch cfg.name { lastRunAt := some (some tRun) } ::
         failEvents cfg.name tEnd 1 m,
       Except.ok
         { success := false
           jobName := cfg.name
           timestamp := tEnd (1 + m)
           error := some (msgs (1 + m))
           executionTime := tEnd (1 + m) - startTime }) := by
    rw [executeJob_eq, hmax,
      retryLoop_all_fail cfg outcome tEnd startTime msgs hout m 1
        (touchRuntimeState store cfg.name { lastRunAt := some (some tRun) })]
  refine ⟨?_, ?_, ?_, ?_⟩
  · rw [hfull]
    show attemptsIn (failEvents cfg.name tEnd 1 m) = m + 1
    exact attemptsIn_failEvents cfg.name tEnd m 1
  · rw [hfull]
    show sleepsIn (failEvents cfg.name tEnd 1 m) = _
    rw [sleepsIn_failEvents cfg.name tEnd m 1,
      show m + 1 - 1 = m from rfl]
    exact List.map_congr_left (fun i _ => by rw [Nat.add_comm 1 i])
  · rw [hfull, Nat.add_comm 1 m]
  · intro h3
    have hm : m = 2 := by omega
    subst hm
    rw [hfull]
    rfl

/-- Outcome oracle whose every attempt throws. -/
def alwaysErr : Nat → AttemptOutcome := fun _ => AttemptOutcome.err "boom"

/-- The constant error-message family of `alwaysErr`. -/
def boomMsgs : Nat → String := fun _ => "boom"

/-- A job definition with `retries = 3`. -/
def retry3Job : JobConfig :=
  { name := "r", cronExpression := "* * * * *", url := "u", method := "GET"
    retries := some 3 }

/-- A trivial clock. -/
def zeroClock : Nat → Int := fun _ => 0

/-- An empty runtime-state store. -/
def emptyStore : RuntimeStore := fun _ => none

/-- Witness for claim C5: three always-failing attempts with `retries = 3`
give exactly 3 attempts, 3000 ms of total backoff and the failure result. -/
theorem claim5_witness :
    attemptsIn (executeJob retry3Job alwaysErr zeroClock 0 0 emptyStore).2.1 = 3 ∧
    (sleepsIn (executeJob retry3Job alwaysErr zeroClock 0 0 emptyStore).2.1).sum = 3000 ∧
    (executeJob retry3Job alwaysErr zeroClock 0 0 emptyStore).2.2 =
      Except.ok
        { success := false, jobName := "r", timestamp := 0,
          error := some "boom", executionTime := 0 } := by
  have h := claim5_retry_exhaustion retry3Job alwaysErr zeroClock 0 0 emptyStore 3
    (by omega) rfl boomMsgs (fun k => rfl)
  exact ⟨h.1, h.2.2.2 rfl, h.2.2.1⟩

theorem touchRuntimeState_self (store : RuntimeStore) (name : String) (u : StateUpdates) :
    touchRuntimeState store name u name =
      some (applyUpdates ((store name).getD emptyJobRuntimeState) u) := by
  unfold touchRuntimeState
  rw [if_pos rfl]

theorem touchRuntimeState_other (store : RuntimeStore) (name : String) (u : StateUpdates)
    (other : String) (h : other ≠ name) :
    touchRuntimeState store name u other = store other := by
  unfold touchRuntimeState
  rw [if_neg h]

theorem retryLoop_touches (cfg : JobConfig) (outcome : Nat → AttemptOutcome)
    (tEnd : Nat → Int) (startTime : Int) :
    ∀ (fuel a : Nat) (store : RuntimeStore),
      ∃ (u : StateUpdates) (evs : List ExecEvent) (res : JobResult),
        retryLoop cfg outcome tEnd startTime a (fuel + 1) store =
          (touchRuntimeState store cfg.name u, evs, Except.ok res) ∧
        touchesIn evs = [(cfg.name, u)] ∧
        u.lastRunAt = none ∧
        ((res.success = true ∧ ∃ t, u = { lastSuccessAt := some (some t) }) ∨
         (res.success = false ∧ ∃ t, u = { lastFailureAt := some (some t) })) := by
  intro fuel
  induction fuel with
  | zero =>
    intro a store
    rcases ho : outcome a with ⟨status, data⟩ | ⟨msg⟩
    · exact ⟨{ lastSuccessAt := some (some (tEnd a)) },
        [ExecEvent.attempt a,
         ExecEvent.touch cfg.name { lastSuccessAt := some (some (tEnd a)) }],
        { success := true, jobName := cfg.name, timestamp := tEnd a,
          response := some data, statusCode := some status,
          executionTime := tEnd a - startTime },
        by rw [retryLoop_eq_succ, ho],
        rfl, rfl, Or.inl ⟨rfl, ⟨tEnd a, rfl⟩⟩⟩
    · exact ⟨{ lastFailureAt := some (some (tEnd a)) },
        [ExecEvent.attempt a,
         ExecEvent.touch cfg.name { lastFailureAt := some (some (tEnd a)) }],
        { success := false, jobName := cfg.name, timestamp := tEnd a,
          error := some msg, executionTime := tEnd a - startTime },
        by rw [retryLoop_eq_succ, ho]; rfl,
        rfl, rfl, Or.inr ⟨rfl, ⟨tEnd a, rfl⟩⟩⟩
  | succ fuel ih =>
    intro a store
    rcases ho : outcome a with ⟨status, data⟩ | ⟨msg⟩
    · exact ⟨{ lastSuccessAt := some (some (tEnd a)) },
        [ExecEvent.attempt a,
         ExecEvent.touch cfg.name { lastSuccessAt := some (some (tEnd a)) }],
        { success := true, jobName := cfg.name, timestamp := tEnd a,
          response := some data, statusCode := some status,
          executionTime := tEnd a - startTime },
        by rw [retryLoop_eq_succ, ho],
        rfl, rfl, Or.inl ⟨rfl, ⟨tEnd a, rfl⟩⟩⟩
    · obtain ⟨u, evs, res, heq, htou, hrun, hdisj⟩ := ih (a + 1) store
      refine ⟨u, ExecEvent.attempt a :: ExecEvent.sleep (backoffDelay a) :: evs, res,
        ?_, ?_, hrun, hdisj⟩
      · rw [retryLoop_eq_succ, ho]
        show ((retryLoop cfg outcome tEnd startTime (a + 1) (fuel + 1) store).1,
          ExecEvent.attempt a :: ExecEvent.sleep (backoffDelay a) ::
            (retryLoop cfg outcome tEnd startTime (a + 1) (fuel + 1) store).2.1,
          (retryLoop cfg outcome tEnd startTime (a + 1) (fuel + 1) store).2.2) =
          (touchRuntimeState store cfg.name u,
           ExecEvent.attempt a :: ExecEvent.sleep (backoffDelay a) :: evs,
           Except.ok res)
        rw [heq]
      · show touchesIn evs = [(cfg.name, u)]
        exact htou

/-- Claim C6: whenever `retries` is absent or at least 1, `executeJob`
records `lastRunAt` exactly once before any attempt, performs exactly one
further runtime-state write which is either a `lastSuccessAt` update (on a
successful attempt) or a `lastFailureAt` update (on exhausting all attempts),
leaves the other of those two fields at its prior value, and modifies no
other job's runtime-state entry. -/
theorem claim6_runtime_state_frame (cfg : JobConfig) (outcome : Nat → AttemptOutcome)
    (tEnd : Nat → Int) (startTime tRun : Int) (store : RuntimeStore)
    (hret : cfg.retries = none ∨ ∃ n, 1 ≤ n ∧ cfg.retries = some n) :
    ∃ (u : StateUpdates) (rest : List ExecEvent) (res : JobResult),
      (executeJob cfg outcome tEnd startTime tRun store).2.1 =
        ExecEvent.touch cfg.name { lastRunAt := some (some tRun) } :: rest ∧
      (executeJob cfg outcome tEnd startTime tRun store).2.2 = Except.ok res ∧
      touchesIn (executeJob cfg outcome tEnd startTime tRun store).2.1 =
        [(cfg.name, { lastRunAt := some (some tRun) }), (cfg.name, u)] ∧
      u.lastRunAt = none ∧
      (∃ st, (executeJob cfg outcome tEnd startTime tRun store).1 cfg.name = some st ∧
        st.lastRunAt = some tRun ∧
        (res.success = true →
          (∃ t, st.lastSuccessAt = some t) ∧
          st.lastFailureAt = ((store cfg.name).getD emptyJobRuntimeState).lastFailureAt) ∧
        (res.success = false →
          (∃ t, st.lastFailureAt = some t) ∧
          st.lastSuccessAt = ((store cfg.name).getD emptyJobRuntimeState).lastSuccessAt)) ∧
      (∀ other, other ≠ cfg.name →
        (executeJob cfg outcome tEnd startTime tRun store).1 other = store other) := by
  obtain ⟨M, hM⟩ : ∃ M, orDefaultNat cfg.retries 3 = M + 1 := by
    rcases hret with h | ⟨n, hn, h⟩
    · exact ⟨2, by rw [h]; rfl⟩
    · obtain ⟨m, rfl⟩ : ∃ m, n = m + 1 := ⟨n - 1, by omega⟩
      exact ⟨m, by rw [h]; rfl⟩
  obtain ⟨u, evs, res, heq, htou, hrun, hdisj⟩ :=
    retryLoop_touches cfg outcome tEnd startTime M 1
      (touchRuntimeState store cfg.name { lastRunAt := some (some tRun) })
  have hfull : executeJob cfg outcome tEnd startTime tRun store =
      (touchRuntimeState
         (touchRuntimeState store cfg.name { lastRunAt := some (some tRun) })
         cfg.name u,
       ExecEvent.touch cfg.name { lastRunAt := some (some tRun) } :: evs,
       Except.ok res) := by
    rw [executeJob_eq, hM, heq]
  refine ⟨u, evs, res, ?_, ?_, ?_, hrun, ?_, ?_⟩
  · rw [hfull]
  · rw [hfull]
  · rw [hfull]
    show (cfg.name, ({ lastRunAt := some (some tRun) } : StateUpdates)) :: touchesIn evs =
      [(cfg.name, { lastRunAt := some (some tRun) }), (cfg.name, u)]
    rw [htou]
  · refine ⟨applyUpdates
        (applyUpdates ((store cfg.name).getD emptyJobRuntimeState)
          { lastRunAt := some (some tRun) }) u, ?_, ?_, ?_, ?_⟩
    · rw [hfull]
      show touchRuntimeState
          (touchRuntimeState store cfg.name { lastRunAt := some (some tRun) })
          cfg.name u cfg.name = _
      rw [touchRuntimeState_self, touchRuntimeState_self]
      rfl
    · show u.lastRunAt.getD
        ((applyUpdates ((store cfg.name).getD emptyJobRuntimeState)
          { lastRunAt := some (some tRun) }).lastRunAt) = some tRun
      rw [hrun]
      rfl
    · intro hs
      rcases hdisj with ⟨hsucc, t, hu⟩ | ⟨hfail, t, hu⟩
      · subst hu
        exact ⟨⟨t, rfl⟩, rfl⟩
      · rw [hs] at hfail
        exact absurd hfail.symm (by decide)
    · intro hs
      rcases hdisj with ⟨hsucc, t, hu⟩ | ⟨hfail, t, hu⟩
      · rw [hs] at hsucc
        exact absurd hsucc (by decide)
      · subst hu
        exact ⟨⟨t, rfl⟩, rfl⟩
  · intro other hne
    rw [hfull]
    show touchRuntimeState
        (touchRuntimeState store cfg.name { lastRunAt := some (some tRun) })
        cfg.name u other = store other
    rw [touchRuntimeState_other _ _ _ _ hne, touchRuntimeState_other _ _ _ _ hne]

/-- Outcome oracle whose every attempt succeeds with status 200. -/
def okOutcome : Nat → AttemptOutcome := fun _ => AttemptOutcome.ok 200 "d"

/-- A job definition with the `retries` field absent. -/
def noRetryJob : JobConfig :=
  { name := "w", cronExpression := "* * * * *", url := "u", method := "GET" }

/-- Witness for claim C6: a concrete run leaves another job's runtime-state
entry untouched. -/
theorem claim6_witness :
    (executeJob noRetryJob okOutcome zeroClock 0 5 emptyStore).1 "x" = emptyStore "x" := by
  obtain ⟨u, rest, res, h1, h2, h3, h4, h5, hframe⟩ :=
    claim6_runtime_state_frame noRetryJob okOutcome zeroClock 0 5 emptyStore (Or.inl rfl)
  exact hframe "x" (by decide)

end SchedulerApp
